import Mathlib

/-!
Verification of the geometric compliance engine of the ILMCS repository.

The engine is shallowly embedded over the rationals: Python floats become
exact rationals, `math.cos` and `math.sqrt` (transcendental, hence not
computable on ℚ) become explicit function parameters `cosd` / `sqrtF` of the
geometric operations, and Python `round` (banker's rounding) becomes
`pyRound` / `roundTo` below.  Every definition is translated line by line
from the corresponding Python function; the module of origin is recorded in
each doc comment.
-/

/-- A coordinate pair `[lon, lat]` in decimal degrees. -/
abbrev Point : Type := ℚ × ℚ

/-- Python `round` to an integer: round half to even (banker's rounding),
idealized over exact rationals. -/
def pyRound (q : ℚ) : ℤ :=
  if q - (⌊q⌋ : ℚ) < 1/2 then ⌊q⌋
  else if 1/2 < q - (⌊q⌋ : ℚ) then ⌊q⌋ + 1
  else if Even ⌊q⌋ then ⌊q⌋ else ⌊q⌋ + 1

/-- Python `round(x, p)`: round to `p` decimal places. -/
def roundTo (p : ℕ) (q : ℚ) : ℚ :=
  (pyRound (q * (10 : ℚ) ^ p) : ℚ) / (10 : ℚ) ^ p

namespace SpatialAnalysis

/-! Embedding of `src/backend/gis_engine/spatial_analysis.py`. -/

/-- `M_PER_DEG_LAT = 111_320.0`. -/
def M_PER_DEG_LAT : ℚ := 111320

/-- `m_per_deg_lon(lat) = 111_320.0 * cos(lat * DEG_TO_RAD)`; the cosine of
the latitude-in-radians is supplied as the parameter `cosd`. -/
def m_per_deg_lon (cosd : ℚ → ℚ) (lat : ℚ) : ℚ := 111320 * cosd lat

/-- `polygon_area_sqm`: shoelace formula on locally projected coordinates;
rings with fewer than 4 points return 0. -/
def polygon_area_sqm (cosd : ℚ → ℚ) (coords : List Point) : ℚ :=
  if coords.length < 4 then 0
  else
    let m := coords.dropLast
    let cx := (m.map Prod.fst).sum / (max (coords.length - 1) 1 : ℕ)
    let cy := (m.map Prod.snd).sum / (max (coords.length - 1) 1 : ℕ)
    let scale_x := m_per_deg_lon cosd cy
    let scale_y := M_PER_DEG_LAT
    let projected := coords.map (fun c => ((c.1 - cx) * scale_x, (c.2 - cy) * scale_y))
    let n := projected.length - 1
    let area := ((List.range n).map (fun i =>
      let p := projected.getD i (0, 0)
      let q := projected.getD ((i + 1) % n) (0, 0)
      p.1 * q.2 - q.1 * p.2)).sum
    |area| / 2

/-- `polygon_centroid`: arithmetic mean of the distinct vertices.  The
Python code compares `coords[0] == coords[-1]`; on the empty list Python
would raise, here the comparison of `head?`/`getLast?` is vacuously true
and the centroid defaults to `(0, 0)` (never reached by the callers, which
guard on ring length). -/
def polygon_centroid (coords : List Point) : Point :=
  let n := if coords.head? = coords.getLast? then coords.length - 1 else coords.length
  ((coords.take n |>.map Prod.fst).sum / (max n 1 : ℕ),
   (coords.take n |>.map Prod.snd).sum / (max n 1 : ℕ))

/-- `compute_iou(area_allotted, area_detected, area_intersection)`. -/
def compute_iou (area_allotted area_detected area_intersection : ℚ) : ℚ :=
  let union := area_allotted + area_detected - area_intersection
  if union ≤ 0 then
    if area_allotted ≤ 0 ∧ area_detected ≤ 0 then 1 else 0
  else roundTo 4 (area_intersection / union)

/-- `compute_area_deviation(allotted_sqm, detected_sqm)`. -/
def compute_area_deviation (allotted_sqm detected_sqm : ℚ) : ℚ :=
  if allotted_sqm ≤ 0 then 0
  else roundTo 2 ((detected_sqm - allotted_sqm) / allotted_sqm * 100)

/-- One vertex step of `buffer_polygon`: radial expansion from the centroid
`(cx, cy)` by `buffer_m` meters; `sqrtF` stands for `math.sqrt`. -/
def buffer_vertex (cosd sqrtF : ℚ → ℚ) (cx cy buffer_m : ℚ) (c : Point) : Point :=
  let scale_x := m_per_deg_lon cosd cy
  let scale_y := M_PER_DEG_LAT
  let dx := (c.1 - cx) * scale_x
  let dy := (c.2 - cy) * scale_y
  let dist := sqrtF (dx * dx + dy * dy)
  if dist < 1/1000000000 then c
  else
    let factor := (dist + buffer_m) / dist
    (roundTo 6 (cx + (c.1 - cx) * factor), roundTo 6 (cy + (c.2 - cy) * factor))

/-- `buffer_polygon(coords, buffer_m)`: expand each vertex outward from the
centroid and re-close the ring. -/
def buffer_polygon (cosd sqrtF : ℚ → ℚ) (coords : List Point) (buffer_m : ℚ) :
    List Point :=
  if coords.length < 4 then coords
  else
    let c := polygon_centroid coords
    let buffered := coords.dropLast.map (buffer_vertex cosd sqrtF c.1 c.2 buffer_m)
    buffered ++ [buffered.headD (0, 0)]

/-- One edge step of `point_in_polygon`: the state is
`(inside, j)` with `j` trailing the loop index `i` as in the source. -/
def pip_step (lon lat : ℚ) (coords : List Point) (st : Bool × ℕ) (i : ℕ) :
    Bool × ℕ :=
  let pi_ := coords.getD i (0, 0)
  let pj := coords.getD st.2 (0, 0)
  let crosses := (decide (lat < pi_.2) ≠ decide (lat < pj.2)) ∧
    lon < (pj.1 - pi_.1) * (lat - pi_.2) / (pj.2 - pi_.2) + pi_.1
  (if crosses then !st.1 else st.1, i)

/-- `point_in_polygon(lon, lat, coords)`: even-odd ray casting over the
`n = len(coords) - 1` edges. -/
def point_in_polygon (lon lat : ℚ) (coords : List Point) : Bool :=
  let n := coords.length - 1
  ((List.range n).foldl (pip_step lon lat coords) (false, n - 1)).1

/-- One edge step of `point_in_polygon_checked`: `none` signals that the
quotient `(xj - xi) * (lat - yi) / (yj - yi)` was about to be evaluated
with a zero denominator. -/
def pip_checked_step (lon lat : ℚ) (coords : List Point)
    (st : Option (Bool × ℕ)) (i : ℕ) : Option (Bool × ℕ) :=
  match st with
  | none => none
  | some (inside, j) =>
    let pi_ := coords.getD i (0, 0)
    let pj := coords.getD j (0, 0)
    if decide (lat < pi_.2) ≠ decide (lat < pj.2) then
      if pj.2 - pi_.2 = 0 then none
      else some
        (if lon < (pj.1 - pi_.1) * (lat - pi_.2) / (pj.2 - pi_.2) + pi_.1
         then !inside else inside, i)
    else some (inside, i)

/-- Instrumented variant of `point_in_polygon` that returns `none` whenever
a division with zero denominator would be evaluated (the situation in
which Python would raise `ZeroDivisionError`). -/
def point_in_polygon_checked (lon lat : ℚ) (coords : List Point) : Option Bool :=
  let n := coords.length - 1
  ((List.range n).foldl (pip_checked_step lon lat coords)
    (some (false, n - 1))).map Prod.fst

/-- `_point_distance_m(p1, p2)`; `sqrtF` stands for `math.sqrt`. -/
def point_distance_m (cosd sqrtF : ℚ → ℚ) (p1 p2 : Point) : ℚ :=
  let lat_avg := (p1.2 + p2.2) / 2
  let dx := (p2.1 - p1.1) * m_per_deg_lon cosd lat_avg
  let dy := (p2.2 - p1.2) * M_PER_DEG_LAT
  sqrtF (dx * dx + dy * dy)

/-- `_directed_hausdorff(coords_a, coords_b)`.  Python initializes the inner
minimum with `float('inf')`; here the inner minimum over an empty
`coords_b` (never the case for the callers, which pass rings) contributes
nothing to the maximum. -/
def directed_hausdorff (cosd sqrtF : ℚ → ℚ) (coords_a coords_b : List Point) : ℚ :=
  coords_a.foldl (fun max_dist pa =>
    match (coords_b.map (point_distance_m cosd sqrtF pa)).min? with
    | some m => if max_dist < m then m else max_dist
    | none => max_dist) 0

/-- `hausdorff_distance(coords_a, coords_b)`. -/
def hausdorff_distance (cosd sqrtF : ℚ → ℚ) (coords_a coords_b : List Point) : ℚ :=
  roundTo 2 (max (directed_hausdorff cosd sqrtF coords_a coords_b)
    (directed_hausdorff cosd sqrtF coords_b coords_a))

/-- `_is_inside(point, edge_start, edge_end)`: left-of-edge test. -/
def is_inside (point edge_start edge_end : Point) : Bool :=
  decide (0 ≤ (edge_end.1 - edge_start.1) * (point.2 - edge_start.2) -
    (edge_end.2 - edge_start.2) * (point.1 - edge_start.1))

/-- `_line_intersection(p1, p2, p3, p4)`: `none` when the denominator is
smaller than `1e-12` in absolute value. -/
def line_intersection (p1 p2 p3 p4 : Point) : Option Point :=
  let denom := (p1.1 - p2.1) * (p3.2 - p4.2) - (p1.2 - p2.2) * (p3.1 - p4.1)
  if |denom| < 1/1000000000000 then none
  else
    let t := ((p1.1 - p3.1) * (p3.2 - p4.2) - (p1.2 - p3.2) * (p3.1 - p4.1)) / denom
    some (p1.1 + t * (p2.1 - p1.1), p1.2 + t * (p2.2 - p1.2))

/-- One Sutherland-Hodgman pass: clip `input_list` against the half-plane of
the edge `edge_start → edge_end`.  `prev` is `input_list[i-1]`, which for
`i = 0` is the last element (Python negative indexing). -/
def clip_edge (input_list : List Point) (edge_start edge_end : Point) : List Point :=
  (List.range input_list.length).foldl (fun output i =>
    let current := input_list.getD i (0, 0)
    let prev := input_list.getD ((i + input_list.length - 1) % input_list.length) (0, 0)
    if is_inside current edge_start edge_end then
      (if !is_inside prev edge_start edge_end then
        match line_intersection prev current edge_start edge_end with
        | some p => output ++ [p]
        | none => output
      else output) ++ [current]
    else if is_inside prev edge_start edge_end then
      match line_intersection prev current edge_start edge_end with
      | some p => output ++ [p]
      | none => output
    else output) []

/-- `polygon_intersection(subject, clip)`: Sutherland-Hodgman clipping.
Python breaks out of the edge loop once `output` is empty; folding the
remaining edges over an empty list is equivalent. -/
def polygon_intersection (subject clip : List Point) : List Point :=
  let output0 := subject.dropLast
  let clip_edges := clip.zip clip.tail
  let output := clip_edges.foldl (fun output e =>
    if output = [] then output else clip_edge output e.1 e.2) output0
  if output = [] then []
  else
    let result := output.map (fun p => (roundTo 6 p.1, roundTo 6 p.2))
    result ++ [result.headD (0, 0)]

/-- `polygon_difference(subject, clip)`: the three-way approximation used in
place of true polygon subtraction. -/
def polygon_difference (cosd : ℚ → ℚ) (subject clip : List Point) : List Point :=
  let inter := polygon_intersection subject clip
  if inter = [] ∨ inter.length < 4 then subject
  else
    let inter_area := polygon_area_sqm cosd inter
    let subj_area := polygon_area_sqm cosd subject
    if subj_area * (95/100) ≤ inter_area then []
    else subject

/-- `SEVERITY_WEIGHTS` dictionary; `.get(severity, 0.3)` supplies the
default `0.3` for unknown keys. -/
def SEVERITY_WEIGHTS (severity : String) : ℚ :=
  if severity = "critical" then 1
  else if severity = "high" then 3/4
  else if severity = "medium" then 1/2
  else if severity = "low" then 1/5
  else 3/10

/-- `compute_risk_score` of `spatial_analysis.py` (severity-string based,
with payment/persistence bonus). -/
def compute_risk_score (severity : String) (area_deviation_pct confidence iou : ℚ)
    (payment_default : Bool) (temporal_persistence : ℤ) : ℚ :=
  let s_severity := SEVERITY_WEIGHTS severity
  let s_deviation := min (|area_deviation_pct| / 30) 1
  let s_iou_dep := 1 - iou
  let bonus := (if payment_default then (1/2 : ℚ) else 0) +
    (if 3 ≤ temporal_persistence then (3/10 : ℚ)
     else if 2 ≤ temporal_persistence then 3/20 else 0)
  let score := 3/10 * s_severity + 1/4 * s_deviation + 1/5 * confidence +
    3/20 * s_iou_dep + 1/10 * min bonus 1
  roundTo 3 (min (max score 0) 1)

/-- `classify_severity(area_deviation_pct, iou)`. -/
def classify_severity (area_deviation_pct iou : ℚ) : String :=
  if 25 < |area_deviation_pct| ∨ iou < 1/2 then "critical"
  else if 15 < |area_deviation_pct| ∨ iou < 13/20 then "high"
  else if 8 < |area_deviation_pct| ∨ iou < 4/5 then "medium"
  else "low"

/-- Relevant fields of the encroachment GeoJSON feature built by
`analyze_plot_encroachment`. -/
structure EncroachGeo where
  area_sqm : ℚ
  severity : String
  coordinates : List Point
deriving DecidableEq

/-- The result dictionary of `analyze_plot_encroachment`, plus the
`plot_id` / `confidence` keys that `batch_analyze_region` adds afterwards
(defaulted here to `""` / `0.85` until the batch layer overwrites them). -/
structure PlotAnalysis where
  allotted_area_sqm : ℚ
  detected_area_sqm : ℚ
  intersection_area_sqm : ℚ
  iou : ℚ
  area_deviation_pct : ℚ
  encroachment_area_sqm : ℚ
  severity : String
  risk_score : ℚ
  hausdorff_distance_m : ℚ
  buffer_tolerance_m : ℚ
  encroachment_geojson : Option EncroachGeo
  plot_id : String
  confidence : ℚ
deriving DecidableEq

/-- `analyze_plot_encroachment(allotted_coords, detected_coords,
buffer_tolerance_m)`: the full single-plot pipeline.  The source also
computes `buffered_area = polygon_area_sqm(buffered_allotted)` but never
uses it; it is omitted here. -/
def analyze_plot_encroachment (cosd sqrtF : ℚ → ℚ)
    (allotted_coords detected_coords : List Point) (buffer_tolerance_m : ℚ) :
    PlotAnalysis :=
  let allotted_area := polygon_area_sqm cosd allotted_coords
  let detected_area := polygon_area_sqm cosd detected_coords
  let buffered_allotted := buffer_polygon cosd sqrtF allotted_coords buffer_tolerance_m
  let inter_coords := polygon_intersection detected_coords allotted_coords
  let inter_area := if inter_coords = [] then 0 else polygon_area_sqm cosd inter_coords
  let iou := compute_iou allotted_area detected_area inter_area
  let deviation := compute_area_deviation allotted_area detected_area
  let diff_coords := polygon_difference cosd detected_coords buffered_allotted
  let encroachment_area := max 0 (detected_area -
    polygon_area_sqm cosd (polygon_intersection detected_coords buffered_allotted))
  let hausdorff := hausdorff_distance cosd sqrtF allotted_coords detected_coords
  let severity := classify_severity deviation iou
  let risk := compute_risk_score severity deviation (17/20) iou false 1
  let encroach_geojson :=
    if 4 ≤ diff_coords.length then
      some ⟨roundTo 1 encroachment_area, severity, diff_coords⟩
    else none
  { allotted_area_sqm := roundTo 1 allotted_area
    detected_area_sqm := roundTo 1 detected_area
    intersection_area_sqm := roundTo 1 inter_area
    iou := iou
    area_deviation_pct := deviation
    encroachment_area_sqm := roundTo 1 encroachment_area
    severity := severity
    risk_score := risk
    hausdorff_distance_m := hausdorff
    buffer_tolerance_m := buffer_tolerance_m
    encroachment_geojson := encroach_geojson
    plot_id := ""
    confidence := 17/20 }

/-- An element of the `plots` argument of `batch_analyze_region`. -/
structure Plot where
  plot_id : String
  boundary_coords : List Point
deriving DecidableEq

/-- An element of the `detected_structures` argument of
`batch_analyze_region`. -/
structure Detection where
  detected_coords : List Point
  confidence : ℚ
deriving DecidableEq

/-- The `severity_counts` accumulator of `batch_analyze_region`. -/
structure SeverityCounts where
  low : ℕ
  medium : ℕ
  high : ℕ
  critical : ℕ
deriving DecidableEq

/-- `severity_counts[severity] += 1`; the four classifier outputs are the
only keys present (any other string would raise `KeyError` in Python and
leaves the counts unchanged here). -/
def bump_severity (c : SeverityCounts) (severity : String) : SeverityCounts :=
  if severity = "low" then { c with low := c.low + 1 }
  else if severity = "medium" then { c with medium := c.medium + 1 }
  else if severity = "high" then { c with high := c.high + 1 }
  else if severity = "critical" then { c with critical := c.critical + 1 }
  else c

/-- The inner matching loop of `batch_analyze_region`: the best-overlap
detection for one plot, paired with its index in the detection list.
`best_overlap` starts at `0.0` and is only beaten strictly, so a match
always has positive intersection area. -/
def best_match (cosd : ℚ → ℚ) (detected_structures : List Detection)
    (allotted : List Point) : Option (ℕ × Detection) :=
  (detected_structures.enum.foldl
    (fun (acc : ℚ × Option (ℕ × Detection)) ids =>
      let detected := ids.2.detected_coords
      if detected.length < 4 then acc
      else
        let inter := polygon_intersection detected allotted
        if inter = [] then acc
        else
          let area := polygon_area_sqm cosd inter
          if acc.1 < area then (area, some ids) else acc)
    (0, none)).2

/-- The aggregate dictionary returned by `batch_analyze_region`. -/
structure RegionReport where
  total_plots_analyzed : ℕ
  violations_found : ℕ
  total_encroachment_sqm : ℚ
  severity_breakdown : SeverityCounts
  plot_analyses : List PlotAnalysis
deriving DecidableEq

/-- The per-plot body of `batch_analyze_region`'s loop, acting on the
accumulator `(results, total_encroachment_sqm, severity_counts)`. -/
def batch_step (cosd sqrtF : ℚ → ℚ) (detected_structures : List Detection)
    (buffer_tolerance_m : ℚ) (acc : List PlotAnalysis × ℚ × SeverityCounts)
    (plot : Plot) : List PlotAnalysis × ℚ × SeverityCounts :=
  let allotted := plot.boundary_coords
  if allotted.length < 4 then acc
  else
    match best_match cosd detected_structures allotted with
    | none => acc
    | some ids =>
      let analysis :=
        { analyze_plot_encroachment cosd sqrtF allotted ids.2.detected_coords
            buffer_tolerance_m with
          plot_id := plot.plot_id, confidence := ids.2.confidence }
      (acc.1 ++ [analysis], acc.2.1 + analysis.encroachment_area_sqm,
        bump_severity acc.2.2 analysis.severity)

/-- `batch_analyze_region(plots, detected_structures, buffer_tolerance_m)`. -/
def batch_analyze_region (cosd sqrtF : ℚ → ℚ) (plots : List Plot)
    (detected_structures : List Detection) (buffer_tolerance_m : ℚ) : RegionReport :=
  let r := plots.foldl (batch_step cosd sqrtF detected_structures buffer_tolerance_m)
    ([], 0, ⟨0, 0, 0, 0⟩)
  { total_plots_analyzed := plots.length
    violations_found := r.1.length
    total_encroachment_sqm := roundTo 1 r.2.1
    severity_breakdown := r.2.2
    plot_analyses := r.1 }

/-- One plot step of `batch_matches`. -/
def match_step (cosd : ℚ → ℚ) (detected_structures : List Detection)
    (acc : List (Plot × ℕ × Detection)) (plot : Plot) :
    List (Plot × ℕ × Detection) :=
  if plot.boundary_coords.length < 4 then acc
  else
    match best_match cosd detected_structures plot.boundary_coords with
    | none => acc
    | some ids => acc ++ [(plot, ids)]

/-- Observation of `batch_analyze_region`'s matching loop: the list of
`(plot, detection index, detection)` triples realized by the per-plot
`best_match` calls, in plot order — exactly the matches whose analyses end
up in `plot_analyses`. -/
def batch_matches (cosd : ℚ → ℚ) (plots : List Plot)
    (detected_structures : List Detection) : List (Plot × ℕ × Detection) :=
  plots.foldl (match_step cosd detected_structures) []

/-- The match `batch_analyze_region` realizes for a single plot, if any:
`none` when the plot ring is degenerate or no detection has positive
overlap with it. -/
def plot_match (cosd : ℚ → ℚ) (detected_structures : List Detection) (plot : Plot) :
    Option (Plot × ℕ × Detection) :=
  if plot.boundary_coords.length < 4 then none
  else (best_match cosd detected_structures plot.boundary_coords).map
    (fun ids => (plot, ids))

/-- The `plot_analyses` entry built from one realized match. -/
def match_entry (cosd sqrtF : ℚ → ℚ) (buffer_tolerance_m : ℚ)
    (t : Plot × ℕ × Detection) : PlotAnalysis :=
  { analyze_plot_encroachment cosd sqrtF t.1.boundary_coords t.2.2.detected_coords
      buffer_tolerance_m with
    plot_id := t.1.plot_id, confidence := t.2.2.confidence }

end SpatialAnalysis

namespace Analyzer

/-! Embedding of the `EncroachmentAnalyzer` class of
`src/ai_pipeline/encroachment/analyzer.py` (the risk engine). -/

/-- The `WEIGHTS` dictionary of `EncroachmentAnalyzer`. -/
def WEIGHTS (key : String) : ℚ :=
  if key = "area_deviation" then 1/4
  else if key = "iou" then 1/4
  else if key = "boundary_depth" then 1/5
  else if key = "temporal_trend" then 3/20
  else if key = "vacancy" then 3/20
  else 0

/-- `EncroachmentAnalyzer.compute_risk_score(iou, deviation_pct, max_depth_m,
months_vacant, trend_slope)`. -/
def compute_risk_score (iou deviation_pct max_depth_m : ℚ) (months_vacant : ℤ)
    (trend_slope : ℚ) : ℚ :=
  let s_area := min 1 (|deviation_pct| / 50)
  let s_iou := 1 - iou
  let s_boundary := min 1 (max_depth_m / 20)
  let s_temporal := min 1 (|trend_slope| * 6)
  let s_vacancy := min 1 ((months_vacant : ℚ) / 36)
  let risk := WEIGHTS "area_deviation" * s_area + WEIGHTS "iou" * s_iou +
    WEIGHTS "boundary_depth" * s_boundary + WEIGHTS "temporal_trend" * s_temporal +
    WEIGHTS "vacancy" * s_vacancy
  roundTo 4 (min 1 (max 0 risk))

/-- `EncroachmentAnalyzer.classify_risk(score)`: the five-level severity
scheme. -/
def classify_risk (score : ℚ) : String :=
  if score < 1/5 then "LOW"
  else if score < 2/5 then "MODERATE"
  else if score < 3/5 then "HIGH"
  else if score < 4/5 then "CRITICAL"
  else "SEVERE"

end Analyzer

namespace Spatial

/-! Embedding of the severity mapping of
`src/backend/gis_engine/spatial.py` (the shapely-based legacy module). -/

/-- `severity_from_score(score)` of `spatial.py`: a distinct five-level
mapping with label `MEDIUM` on `[0.2, 0.4)` and `SEVERE`/`CRITICAL` in the
opposite order from `EncroachmentAnalyzer.classify_risk`. -/
def severity_from_score (score : ℚ) : String :=
  if 4/5 ≤ score then "CRITICAL"
  else if 3/5 ≤ score then "SEVERE"
  else if 2/5 ≤ score then "HIGH"
  else if 1/5 ≤ score then "MEDIUM"
  else "LOW"

end Spatial

/-!
Concrete instances used by witnesses and counterexamples.  All example
geometry is symmetric about the equator, so `math.cos` is only ever
evaluated at latitude `0`, where its exact value is `1`: the stand-in
`cosd0` is therefore exact on every latitude at which these instances
evaluate it.
-/

/-- Exact stand-in for `cos(lat * π/180)` on the example geometry (only
ever applied at latitude `0`). -/
def cosd0 : ℚ → ℚ := fun _ => 1

/-- Stand-in for `math.sqrt` in instances whose conclusions hold for every
square-root function. -/
def sqrt0 : ℚ → ℚ := fun _ => 0

/-- A 1°-wide plot left of `plotP2`, symmetric about the equator. -/
def plotP1 : SpatialAnalysis.Plot :=
  ⟨"P1", [(0, -1), (1, -1), (1, 1), (0, 1), (0, -1)]⟩

/-- A 1°-wide plot right of `plotP1`, symmetric about the equator. -/
def plotP2 : SpatialAnalysis.Plot :=
  ⟨"P2", [(1, -1), (2, -1), (2, 1), (1, 1), (1, -1)]⟩

/-- A single detected structure covering both `plotP1` and `plotP2`. -/
def detD : SpatialAnalysis.Detection :=
  ⟨[(0, -1), (2, -1), (2, 1), (0, 1), (0, -1)], 9/10⟩

/-- A unit-square ring at the origin. -/
def ringSq : List Point := [(0, 0), (1, 0), (1, 1), (0, 1), (0, 0)]

/-- A unit-square ring far from `ringSq` (no overlap). -/
def ringFar : List Point := [(10, 10), (11, 10), (11, 11), (10, 11), (10, 10)]

/-!  Properties of the rounding primitive. -/

lemma abs_pyRound_sub_le (q : ℚ) : |(pyRound q : ℚ) - q| ≤ 1/2 := by
  have h0 : (0 : ℚ) ≤ q - ⌊q⌋ := by
    have := Int.floor_le q; linarith
  have h1 : q - (⌊q⌋ : ℚ) < 1 := by
    have := Int.lt_floor_add_one q; linarith
  unfold pyRound
  split_ifs with hlt hgt hev
  · rw [abs_le]; constructor <;> linarith
  · push_cast; rw [abs_le]; constructor <;> linarith
  · have heq : q - (⌊q⌋ : ℚ) = 1/2 := le_antisymm (not_lt.mp hgt) (not_lt.mp hlt)
    rw [abs_le]; constructor <;> linarith
  · have heq : q - (⌊q⌋ : ℚ) = 1/2 := le_antisymm (not_lt.mp hgt) (not_lt.mp hlt)
    push_cast; rw [abs_le]; constructor <;> linarith

lemma pyRound_mono {q r : ℚ} (h : q ≤ r) : pyRound q ≤ pyRound r := by
  by_contra hc
  push_neg at hc
  have hcast : (pyRound r : ℚ) + 1 ≤ (pyRound q : ℚ) := by
    exact_mod_cast Int.add_one_le_iff.mpr hc
  have hq := abs_le.mp (abs_pyRound_sub_le q)
  have hr := abs_le.mp (abs_pyRound_sub_le r)
  have hrq : r ≤ q := by linarith
  have : q = r := le_antisymm h hrq
  rw [this] at hc
  exact lt_irrefl _ hc

lemma pyRound_intCast (n : ℤ) : pyRound (n : ℚ) = n := by
  unfold pyRound
  rw [Int.floor_intCast]
  rw [if_pos (by norm_num)]

lemma roundTo_mono (p : ℕ) {q r : ℚ} (h : q ≤ r) : roundTo p q ≤ roundTo p r := by
  unfold roundTo
  have hp : (0 : ℚ) < (10 : ℚ) ^ p := by positivity
  gcongr
  exact_mod_cast pyRound_mono (mul_le_mul_of_nonneg_right h hp.le)

lemma abs_roundTo_sub_le (p : ℕ) (q : ℚ) :
    |roundTo p q - q| ≤ 1 / (2 * (10 : ℚ) ^ p) := by
  have hp : (0 : ℚ) < (10 : ℚ) ^ p := by positivity
  have hrw : roundTo p q - q = ((pyRound (q * (10 : ℚ) ^ p) : ℚ) - q * (10 : ℚ) ^ p) / (10 : ℚ) ^ p := by
    unfold roundTo; field_simp; ring
  rw [hrw, abs_div, abs_of_pos hp]
  rw [div_le_div_iff₀ hp (by positivity)]
  have := abs_pyRound_sub_le (q * (10 : ℚ) ^ p)
  nlinarith [hp]

lemma roundTo_intCast (p : ℕ) (n : ℤ) : roundTo p (n : ℚ) = n := by
  unfold roundTo
  have h : ((n : ℚ) * (10 : ℚ) ^ p) = (((n * 10 ^ p : ℤ) : ℚ)) := by push_cast; ring
  rw [h, pyRound_intCast]
  have hp : ((10 : ℚ) ^ p) ≠ 0 := by positivity
  push_cast
  field_simp

lemma roundTo_zero (p : ℕ) : roundTo p 0 = 0 := by
  have := roundTo_intCast p 0; simpa using this

lemma roundTo_one (p : ℕ) : roundTo p 1 = 1 := by
  have := roundTo_intCast p 1; simpa using this

lemma roundTo_nonneg (p : ℕ) {q : ℚ} (h : 0 ≤ q) : 0 ≤ roundTo p q := by
  have := roundTo_mono p h
  rwa [roundTo_zero] at this

lemma roundTo_le_one (p : ℕ) {q : ℚ} (h : q ≤ 1) : roundTo p q ≤ 1 := by
  have := roundTo_mono p h
  rwa [roundTo_one] at this

/-!  Structure of the batch-analyzer loops. -/

namespace SpatialAnalysis

lemma match_step_eq (cosd : ℚ → ℚ) (dets : List Detection)
    (acc : List (Plot × ℕ × Detection)) (plot : Plot) :
    match_step cosd dets acc plot = acc ++ (plot_match cosd dets plot).toList := by
  unfold match_step plot_match
  by_cases h : plot.boundary_coords.length < 4
  · simp [h]
  · cases hbm : best_match cosd dets plot.boundary_coords <;> simp [h, hbm]

lemma foldl_match_step (cosd : ℚ → ℚ) (dets : List Detection) :
    ∀ (plots : List Plot) (acc : List (Plot × ℕ × Detection)),
      plots.foldl (match_step cosd dets) acc =
        acc ++ plots.filterMap (plot_match cosd dets) := by
  intro plots
  induction plots with
  | nil => intro acc; simp
  | cons p ps ih =>
    intro acc
    rw [List.foldl_cons, ih, match_step_eq, List.filterMap_cons]
    cases hbm : plot_match cosd dets p <;> simp [List.append_assoc]

lemma batch_step_fst (cosd sqrtF : ℚ → ℚ) (dets : List Detection) (tol : ℚ)
    (acc : List PlotAnalysis × ℚ × SeverityCounts) (plot : Plot) :
    (batch_step cosd sqrtF dets tol acc plot).1 =
      acc.1 ++ ((plot_match cosd dets plot).map (match_entry cosd sqrtF tol)).toList := by
  unfold batch_step plot_match match_entry
  by_cases h : plot.boundary_coords.length < 4
  · simp [h]
  · cases hbm : best_match cosd dets plot.boundary_coords <;> simp [h, hbm]

lemma foldl_batch_step_fst (cosd sqrtF : ℚ → ℚ) (dets : List Detection) (tol : ℚ) :
    ∀ (plots : List Plot) (acc : List PlotAnalysis × ℚ × SeverityCounts),
      (plots.foldl (batch_step cosd sqrtF dets tol) acc).1 =
        acc.1 ++ plots.filterMap
          (fun p => (plot_match cosd dets p).map (match_entry cosd sqrtF tol)) := by
  intro plots
  induction plots with
  | nil => intro acc; simp
  | cons p ps ih =>
    intro acc
    rw [List.foldl_cons, ih, List.filterMap_cons]
    rw [batch_step_fst]
    cases hbm : (plot_match cosd dets p).map (match_entry cosd sqrtF tol) <;>
      simp [hbm, List.append_assoc]

/-!  Structure of the ray-casting loop. -/

lemma pip_checked_step_some (lon lat : ℚ) (coords : List Point)
    (st : Bool × ℕ) (i : ℕ) :
    pip_checked_step lon lat coords (some st) i =
      some (pip_step lon lat coords st i) := by
  obtain ⟨inside, j⟩ := st
  simp only [pip_checked_step, pip_step]
  by_cases hg : (lat < (coords.getD i (0, 0)).2 ↔ lat < (coords.getD j (0, 0)).2)
  · rw [if_neg (fun h => h (decide_eq_decide.mpr hg)),
      if_neg (fun h => h.1 (decide_eq_decide.mpr hg))]
  · have hgd : decide (lat < (coords.getD i (0, 0)).2) ≠
        decide (lat < (coords.getD j (0, 0)).2) :=
      fun h => hg (decide_eq_decide.mp h)
    have hne : (coords.getD j (0, 0)).2 - (coords.getD i (0, 0)).2 ≠ 0 := by
      intro h0
      rw [sub_eq_zero] at h0
      exact hg (by rw [h0])
    rw [if_pos hgd, if_neg hne]
    by_cases hc : lon < ((coords.getD j (0, 0)).1 - (coords.getD i (0, 0)).1) *
        (lat - (coords.getD i (0, 0)).2) /
        ((coords.getD j (0, 0)).2 - (coords.getD i (0, 0)).2) + (coords.getD i (0, 0)).1
    · rw [if_pos hc, if_pos ⟨hgd, hc⟩]
    · rw [if_neg hc, if_neg (fun hcr => hc hcr.2)]

lemma foldl_pip_checked_step (lon lat : ℚ) (coords : List Point) :
    ∀ (l : List ℕ) (st : Bool × ℕ),
      l.foldl (pip_checked_step lon lat coords) (some st) =
        some (l.foldl (pip_step lon lat coords) st) := by
  intro l
  induction l with
  | nil => intro st; rfl
  | cons a l ih =>
    intro st
    rw [List.foldl_cons, pip_checked_step_some, ih, List.foldl_cons]

/-- With `buffer_m = 0` the expansion factor is exactly `1`, so each
buffered vertex is the original vertex up to the 6-decimal rounding. -/
lemma buffer_vertex_zero_close (cosd sqrtF : ℚ → ℚ) (cx cy : ℚ) (c : Point) :
    |(buffer_vertex cosd sqrtF cx cy 0 c).1 - c.1| ≤ 1/2000000 ∧
    |(buffer_vertex cosd sqrtF cx cy 0 c).2 - c.2| ≤ 1/2000000 := by
  simp only [buffer_vertex]
  split_ifs with h
  · norm_num
  · have hd : sqrtF ((c.1 - cx) * m_per_deg_lon cosd cy *
        ((c.1 - cx) * m_per_deg_lon cosd cy) +
        (c.2 - cy) * M_PER_DEG_LAT * ((c.2 - cy) * M_PER_DEG_LAT)) ≠ 0 := by
      intro h0
      rw [h0] at h
      norm_num at h
    rw [add_zero, div_self hd]
    have h1 : cx + (c.1 - cx) * 1 = c.1 := by ring
    have h2 : cy + (c.2 - cy) * 1 = c.2 := by ring
    rw [h1, h2]
    have b1 := abs_roundTo_sub_le 6 c.1
    have b2 := abs_roundTo_sub_le 6 c.2
    norm_num at b1 b2 ⊢
    exact ⟨b1, b2⟩

lemma buffer_polygon_unfold (cosd sqrtF : ℚ → ℚ) (coords : List Point)
    (buffer_m : ℚ) (hnot : ¬ coords.length < 4) :
    buffer_polygon cosd sqrtF coords buffer_m =
      coords.dropLast.map (buffer_vertex cosd sqrtF (polygon_centroid coords).1
          (polygon_centroid coords).2 buffer_m) ++
        [(coords.dropLast.map (buffer_vertex cosd sqrtF (polygon_centroid coords).1
          (polygon_centroid coords).2 buffer_m)).headD (0, 0)] := by
  simp only [buffer_polygon, if_neg hnot]

/-- Every entry of the zero-buffered ring is `buffer_vertex` applied to the
corresponding entry of the input ring (for the re-closing last entry this
uses closure of the input ring). -/
lemma buffer_polygon_zero_getD (cosd sqrtF : ℚ → ℚ) (coords : List Point)
    (h4 : 4 ≤ coords.length) (hclosed : coords.head? = coords.getLast?)
    (i : ℕ) (hi : i < coords.length) :
    (buffer_polygon cosd sqrtF coords 0).getD i (0, 0) =
      buffer_vertex cosd sqrtF (polygon_centroid coords).1
        (polygon_centroid coords).2 0 (coords.getD i (0, 0)) := by
  have hnot : ¬ coords.length < 4 := not_lt.mpr h4
  rw [buffer_polygon_unfold cosd sqrtF coords 0 hnot]
  have hBlen : (coords.dropLast.map (buffer_vertex cosd sqrtF (polygon_centroid coords).1
      (polygon_centroid coords).2 0)).length = coords.length - 1 := by simp
  have hkey : ∀ j, j < coords.length - 1 →
      (coords.dropLast.map (buffer_vertex cosd sqrtF (polygon_centroid coords).1
        (polygon_centroid coords).2 0)).getD j (0, 0) =
      buffer_vertex cosd sqrtF (polygon_centroid coords).1
        (polygon_centroid coords).2 0 (coords.getD j (0, 0)) := by
    intro j hj
    have hjlen : j < coords.length := by omega
    rw [List.getD_eq_getElem?_getD, List.getD_eq_getElem?_getD, List.getElem?_map,
      List.getElem?_dropLast, if_pos hj, List.getElem?_eq_getElem hjlen]
    rfl
  by_cases hilt : i < coords.length - 1
  · rw [List.getD_eq_getElem?_getD,
      List.getElem?_append_left (by omega : i < (coords.dropLast.map
        (buffer_vertex cosd sqrtF (polygon_centroid coords).1
          (polygon_centroid coords).2 0)).length),
      ← List.getD_eq_getElem?_getD]
    exact hkey i hilt
  · have hieq : i = coords.length - 1 := by omega
    have hlast : (coords.dropLast.map (buffer_vertex cosd sqrtF (polygon_centroid coords).1
        (polygon_centroid coords).2 0) ++
        [(coords.dropLast.map (buffer_vertex cosd sqrtF (polygon_centroid coords).1
          (polygon_centroid coords).2 0)).headD (0, 0)]).getD i (0, 0) =
        (coords.dropLast.map (buffer_vertex cosd sqrtF (polygon_centroid coords).1
          (polygon_centroid coords).2 0)).headD (0, 0) := by
      rw [List.getD_eq_getElem?_getD]
      rw [show i = (coords.dropLast.map (buffer_vertex cosd sqrtF
        (polygon_centroid coords).1 (polygon_centroid coords).2 0)).length by omega]
      rw [List.getElem?_concat_length]
      rfl
    have hhead : (coords.dropLast.map (buffer_vertex cosd sqrtF (polygon_centroid coords).1
        (polygon_centroid coords).2 0)).headD (0, 0) =
        (coords.dropLast.map (buffer_vertex cosd sqrtF (polygon_centroid coords).1
          (polygon_centroid coords).2 0)).getD 0 (0, 0) := by
      rw [List.getD_eq_getElem?_getD, List.headD_eq_head?_getD, List.head?_eq_getElem?]
    have hclose_idx : coords.getD (coords.length - 1) (0, 0) = coords.getD 0 (0, 0) := by
      rw [List.getD_eq_getElem?_getD, List.getD_eq_getElem?_getD,
        ← List.head?_eq_getElem?, ← List.getLast?_eq_getElem?, hclosed]
    rw [hlast, hhead, hkey 0 (by omega), hieq, hclose_idx]

lemma batch_plot_analyses_eq (cosd sqrtF : ℚ → ℚ) (plots : List Plot)
    (dets : List Detection) (tol : ℚ) :
    (batch_analyze_region cosd sqrtF plots dets tol).plot_analyses =
      plots.filterMap
        (fun p => (plot_match cosd dets p).map (match_entry cosd sqrtF tol)) := by
  show (plots.foldl (batch_step cosd sqrtF dets tol) ([], 0, ⟨0, 0, 0, 0⟩)).1 = _
  rw [foldl_batch_step_fst]
  simp

end SpatialAnalysis

/-- The `EncroachmentAnalyzer.compute_risk_score` dictionary lookups and
intermediate bindings collapse to the closed-form weighted sum. -/
lemma Analyzer.compute_risk_score_eq (iou deviation_pct max_depth_m : ℚ)
    (months_vacant : ℤ) (trend_slope : ℚ) :
    Analyzer.compute_risk_score iou deviation_pct max_depth_m months_vacant trend_slope =
      roundTo 4 (min 1 (max 0 (
        1/4 * min 1 (|deviation_pct| / 50) + 1/4 * (1 - iou) +
        1/5 * min 1 (max_depth_m / 20) + 3/20 * min 1 (|trend_slope| * 6) +
        3/20 * min 1 ((months_vacant : ℚ) / 36)))) := rfl

/-!  The claims. -/

open SpatialAnalysis in
/-- C1: for every input, `EncroachmentAnalyzer.compute_risk_score` equals
`0.25*s_area + 0.25*s_iou + 0.20*s_boundary + 0.15*s_temporal +
0.15*s_vacancy` with `s_area = min(1, |area_deviation_pct|/50)`,
`s_iou = 1 - iou`, `s_boundary = min(1, max_encroachment_depth_m/20)`,
`s_temporal = min(1, |monthly_trend_slope|*6)`,
`s_vacancy = min(1, months_vacant/36)`, clamped to `[0, 1]` and rounded to
4 decimal places. -/
theorem risk_score_formula (iou deviation_pct max_depth_m : ℚ)
    (months_vacant : ℤ) (trend_slope : ℚ) :
    Analyzer.compute_risk_score iou deviation_pct max_depth_m months_vacant trend_slope =
      roundTo 4 (min 1 (max 0 (
        1/4 * min 1 (|deviation_pct| / 50) + 1/4 * (1 - iou) +
        1/5 * min 1 (max_depth_m / 20) + 3/20 * min 1 (|trend_slope| * 6) +
        3/20 * min 1 ((months_vacant : ℚ) / 36)))) :=
  Analyzer.compute_risk_score_eq iou deviation_pct max_depth_m months_vacant trend_slope

/-- C2: the five-level severity mapping (`EncroachmentAnalyzer.classify_risk`)
returns `LOW` for `s < 0.20`, `MODERATE` for `0.20 ≤ s < 0.40`, `HIGH` for
`0.40 ≤ s < 0.60`, `CRITICAL` for `0.60 ≤ s < 0.80`, and `SEVERE`
otherwise. -/
theorem classify_risk_buckets (s : ℚ) :
    (s < 1/5 → Analyzer.classify_risk s = "LOW") ∧
    (1/5 ≤ s → s < 2/5 → Analyzer.classify_risk s = "MODERATE") ∧
    (2/5 ≤ s → s < 3/5 → Analyzer.classify_risk s = "HIGH") ∧
    (3/5 ≤ s → s < 4/5 → Analyzer.classify_risk s = "CRITICAL") ∧
    (4/5 ≤ s → Analyzer.classify_risk s = "SEVERE") := by
  refine ⟨fun h1 => ?_, fun h1 h2 => ?_, fun h1 h2 => ?_, fun h1 h2 => ?_,
    fun h1 => ?_⟩ <;>
    (unfold Analyzer.classify_risk; split_ifs <;> first | rfl | linarith)

/-- Witness for C2 at the concrete score `0.5`. -/
theorem classify_risk_buckets_witness : Analyzer.classify_risk (1/2) = "HIGH" :=
  (classify_risk_buckets (1/2)).2.2.1 (by norm_num) (by norm_num)

/-- C4 counterexample: in `batch_analyze_region`'s matching loop, the two
distinct plots `plotP1` and `plotP2` are both matched to the same detection
(index 0), and both matches produce entries in `plot_analyses` — detections
are not used by at most one plot. -/
theorem batch_shared_detection_counterexample :
    SpatialAnalysis.batch_matches cosd0 [plotP1, plotP2] [detD] =
      [(plotP1, 0, detD), (plotP2, 0, detD)] ∧ plotP1 ≠ plotP2 :=
  ⟨by with_unfolding_all decide, by with_unfolding_all decide⟩

/-- C4 (amended): `batch_analyze_region` matches each plot to its
best-overlap detection independently of all other plots — the realized
matches are a per-plot `filterMap` over the full detection list, and
`plot_analyses` carries exactly one entry per realized match.  Nothing
prevents two plots from matching the same detection. -/
theorem batch_matching_per_plot (cosd sqrtF : ℚ → ℚ)
    (plots : List SpatialAnalysis.Plot) (dets : List SpatialAnalysis.Detection)
    (tol : ℚ) :
    SpatialAnalysis.batch_matches cosd plots dets =
      plots.filterMap (SpatialAnalysis.plot_match cosd dets) ∧
    (SpatialAnalysis.batch_analyze_region cosd sqrtF plots dets tol).plot_analyses =
      (SpatialAnalysis.batch_matches cosd plots dets).map
        (SpatialAnalysis.match_entry cosd sqrtF tol) := by
  have h1 : SpatialAnalysis.batch_matches cosd plots dets =
      plots.filterMap (SpatialAnalysis.plot_match cosd dets) := by
    unfold SpatialAnalysis.batch_matches
    rw [SpatialAnalysis.foldl_match_step]
    simp
  refine ⟨h1, ?_⟩
  rw [SpatialAnalysis.batch_plot_analyses_eq, h1, List.map_filterMap]

/-- C5 counterexample: a plot with no positive-overlap detection (here:
no detections at all) is omitted from `plot_analyses` entirely rather than
reported as a vacant entry; only the `total_plots_analyzed` count records
it. -/
theorem batch_vacant_plot_counterexample :
    (SpatialAnalysis.batch_analyze_region cosd0 sqrt0 [plotP1] [] 2).plot_analyses
        = [] ∧
    (SpatialAnalysis.batch_analyze_region cosd0 sqrt0 [plotP1] [] 2).total_plots_analyzed
        = 1 :=
  ⟨by with_unfolding_all rfl, by with_unfolding_all rfl⟩

/-- C5 (amended): `batch_analyze_region`'s per-plot entries are exactly the
plots with a valid ring and a positive-overlap best match; a plot with no
positive-overlap detection contributes no entry at all (it is not reported
vacant at this layer). -/
theorem batch_unmatched_plot_omitted (cosd sqrtF : ℚ → ℚ)
    (plots : List SpatialAnalysis.Plot) (dets : List SpatialAnalysis.Detection)
    (tol : ℚ) :
    (SpatialAnalysis.batch_analyze_region cosd sqrtF plots dets tol).plot_analyses =
      plots.filterMap (fun p => (SpatialAnalysis.plot_match cosd dets p).map
        (SpatialAnalysis.match_entry cosd sqrtF tol)) ∧
    ∀ p : SpatialAnalysis.Plot,
      SpatialAnalysis.best_match cosd dets p.boundary_coords = none →
      (SpatialAnalysis.plot_match cosd dets p).map
        (SpatialAnalysis.match_entry cosd sqrtF tol) = none := by
  refine ⟨SpatialAnalysis.batch_plot_analyses_eq cosd sqrtF plots dets tol, ?_⟩
  intro p hbm
  unfold SpatialAnalysis.plot_match
  split_ifs with h
  · rfl
  · rw [hbm]; rfl

/-- Witness for C5 applied to the concrete plot `plotP1` and an empty
detection list. -/
theorem batch_unmatched_plot_omitted_witness :
    (SpatialAnalysis.plot_match cosd0 [] plotP1).map
      (SpatialAnalysis.match_entry cosd0 sqrt0 2) = none :=
  (batch_unmatched_plot_omitted cosd0 sqrt0 [plotP1] [] 2).2 plotP1 rfl

/-- C3: `polygon_difference` follows the exact three-way policy.  The
branch for "no intersection" covers an empty or degenerate (fewer than 4
points) clipping result; when an intersection ring exists, the result is
empty precisely when the intersection area reaches 95% of the subject
area, and the full unclipped subject ring otherwise. -/
theorem polygon_difference_three_way (cosd : ℚ → ℚ) (subject clip : List Point) :
    (4 ≤ (SpatialAnalysis.polygon_intersection subject clip).length →
      SpatialAnalysis.polygon_area_sqm cosd subject * (95/100) ≤
        SpatialAnalysis.polygon_area_sqm cosd
          (SpatialAnalysis.polygon_intersection subject clip) →
      SpatialAnalysis.polygon_difference cosd subject clip = []) ∧
    ((SpatialAnalysis.polygon_intersection subject clip).length < 4 →
      SpatialAnalysis.polygon_difference cosd subject clip = subject) ∧
    (4 ≤ (SpatialAnalysis.polygon_intersection subject clip).length →
      SpatialAnalysis.polygon_area_sqm cosd
          (SpatialAnalysis.polygon_intersection subject clip) <
        SpatialAnalysis.polygon_area_sqm cosd subject * (95/100) →
      SpatialAnalysis.polygon_difference cosd subject clip = subject) := by
  refine ⟨fun h4 harea => ?_, fun hlt => ?_, fun h4 harea => ?_⟩
  · simp only [SpatialAnalysis.polygon_difference]
    split_ifs with hc
    · exfalso
      rcases hc with he | hl
      · rw [he] at h4; simp at h4
      · omega
    · rfl
  · simp only [SpatialAnalysis.polygon_difference]
    split_ifs with hc hb
    · rfl
    · exact absurd (Or.inr hlt) hc
    · exact absurd (Or.inr hlt) hc
  · simp only [SpatialAnalysis.polygon_difference]
    split_ifs with hc hb <;> first | rfl | linarith

/-- Witness for C3 at concrete disjoint squares: the clipped result is
degenerate, so the difference is the full subject ring. -/
theorem polygon_difference_three_way_witness :
    SpatialAnalysis.polygon_difference cosd0 ringSq ringFar = ringSq :=
  (polygon_difference_three_way cosd0 ringSq ringFar).2.1
    (by with_unfolding_all decide)

/-- C6 counterexample: for the non-negative inputs `area(A) = 1`,
`area(B) = 1`, `intersection = 1.5` the union is positive but smaller than
the intersection, and `compute_iou` returns `3`, outside `[0, 1]`. -/
theorem compute_iou_range_counterexample :
    SpatialAnalysis.compute_iou 1 1 (3/2) = 3 ∧
    ¬ SpatialAnalysis.compute_iou 1 1 (3/2) ≤ 1 :=
  ⟨by with_unfolding_all decide, by with_unfolding_all decide⟩

/-- C6 (amended): `compute_iou` returns
`roundTo 4 (intersection / (A + B - intersection))` whenever the union is
positive, `1` when both areas are zero, `0` when the union is zero but the
areas are not both zero — and the result lies in `[0, 1]` provided the
intersection is at most each area (as holds for genuine areas); without
that bound the rounded ratio can exceed `1`. -/
theorem compute_iou_props (a b i : ℚ) :
    (a = 0 → b = 0 → 0 ≤ i → SpatialAnalysis.compute_iou a b i = 1) ∧
    (a + b - i = 0 → 0 ≤ a → 0 ≤ b → ¬(a = 0 ∧ b = 0) →
      SpatialAnalysis.compute_iou a b i = 0) ∧
    (0 < a + b - i →
      SpatialAnalysis.compute_iou a b i = roundTo 4 (i / (a + b - i))) ∧
    (0 ≤ i → i ≤ a → i ≤ b →
      0 ≤ SpatialAnalysis.compute_iou a b i ∧
      SpatialAnalysis.compute_iou a b i ≤ 1) := by
  refine ⟨fun ha hb hi => ?_, fun hu ha hb hne => ?_, fun hu => ?_,
    fun hi ha hb => ?_⟩ <;> simp only [SpatialAnalysis.compute_iou] <;>
    split_ifs with h1 h2
  · rfl
  · exact absurd ⟨le_of_eq ha, le_of_eq hb⟩ h2
  · exfalso; apply h1; rw [ha, hb]; linarith
  · exact absurd ⟨le_antisymm h2.1 ha, le_antisymm h2.2 hb⟩ hne
  · rfl
  · exact absurd (le_of_eq hu) h1
  · linarith
  · linarith
  · rfl
  · exact ⟨zero_le_one, le_refl 1⟩
  · norm_num
  · have hun : 0 < a + b - i := not_le.mp h1
    have hdiv0 : 0 ≤ i / (a + b - i) := div_nonneg hi hun.le
    have hdiv1 : i / (a + b - i) ≤ 1 := by
      rw [div_le_one hun]; linarith
    exact ⟨roundTo_nonneg 4 hdiv0, roundTo_le_one 4 hdiv1⟩

/-- Witness for C6 at the concrete areas `A = 2`, `B = 3`,
`intersection = 1`. -/
theorem compute_iou_props_witness :
    SpatialAnalysis.compute_iou 2 3 1 = roundTo 4 (1/4) ∧
    0 ≤ SpatialAnalysis.compute_iou 2 3 1 ∧ SpatialAnalysis.compute_iou 2 3 1 ≤ 1 :=
  ⟨by have := (compute_iou_props 2 3 1).2.2.1 (by norm_num); norm_num at this ⊢; exact this,
   (compute_iou_props 2 3 1).2.2.2 (by norm_num) (by norm_num) (by norm_num)⟩

/-- C7: `polygon_area_sqm` is non-negative for every coordinate ring and
any projection scale, and returns exactly `0` for rings with fewer than 4
points. -/
theorem polygon_area_nonneg (cosd : ℚ → ℚ) (coords : List Point) :
    0 ≤ SpatialAnalysis.polygon_area_sqm cosd coords ∧
    (coords.length < 4 → SpatialAnalysis.polygon_area_sqm cosd coords = 0) := by
  simp only [SpatialAnalysis.polygon_area_sqm]
  split_ifs with h
  · exact ⟨le_refl 0, fun _ => rfl⟩
  · exact ⟨by positivity, fun hlt => absurd hlt h⟩

/-- Witness for C7 at a degenerate one-point ring. -/
theorem polygon_area_nonneg_witness :
    SpatialAnalysis.polygon_area_sqm cosd0 [((0 : ℚ), (0 : ℚ))] = 0 :=
  (polygon_area_nonneg cosd0 [(0, 0)]).2 (by simp)

/-- C8: holding all other inputs fixed,
`EncroachmentAnalyzer.compute_risk_score` is monotone non-decreasing in
`|area_deviation_pct|`, in `1 - iou`, and in `max_encroachment_depth_m`. -/
theorem risk_score_monotone (iou iou' d d' depth depth' : ℚ) (mv : ℤ) (slope : ℚ) :
    (|d| ≤ |d'| → Analyzer.compute_risk_score iou d depth mv slope ≤
      Analyzer.compute_risk_score iou d' depth mv slope) ∧
    (1 - iou ≤ 1 - iou' → Analyzer.compute_risk_score iou d depth mv slope ≤
      Analyzer.compute_risk_score iou' d depth mv slope) ∧
    (depth ≤ depth' → Analyzer.compute_risk_score iou d depth mv slope ≤
      Analyzer.compute_risk_score iou d depth' mv slope) := by
  refine ⟨fun h => ?_, fun h => ?_, fun h => ?_⟩ <;>
    (rw [Analyzer.compute_risk_score_eq, Analyzer.compute_risk_score_eq];
     apply roundTo_mono; gcongr)

/-- Witness for C8 at concrete inputs discharging all three hypotheses. -/
theorem risk_score_monotone_witness :
    Analyzer.compute_risk_score (1/2) 10 5 0 0 ≤
      Analyzer.compute_risk_score (1/2) 20 5 0 0 ∧
    Analyzer.compute_risk_score (1/2) 10 5 0 0 ≤
      Analyzer.compute_risk_score (1/4) 10 5 0 0 ∧
    Analyzer.compute_risk_score (1/2) 10 5 0 0 ≤
      Analyzer.compute_risk_score (1/2) 10 7 0 0 :=
  ⟨(risk_score_monotone (1/2) (1/2) 10 20 5 5 0 0).1 (by norm_num),
   (risk_score_monotone (1/2) (1/4) 10 10 5 5 0 0).2.1 (by norm_num),
   (risk_score_monotone (1/2) (1/2) 10 10 5 7 0 0).2.2 (by norm_num)⟩

/-- C9: for every closed ring of at least 4 points and any square-root
model, `buffer_polygon(ring, 0)` preserves the ring's length, stays closed,
and moves every vertex by at most the 6-decimal rounding error
(`5e-7` per coordinate). -/
theorem buffer_zero_preserves_ring (cosd sqrtF : ℚ → ℚ) (coords : List Point)
    (h4 : 4 ≤ coords.length) (hclosed : coords.head? = coords.getLast?) :
    (SpatialAnalysis.buffer_polygon cosd sqrtF coords 0).length = coords.length ∧
    (SpatialAnalysis.buffer_polygon cosd sqrtF coords 0).head? =
      (SpatialAnalysis.buffer_polygon cosd sqrtF coords 0).getLast? ∧
    ∀ i, i < coords.length →
      |((SpatialAnalysis.buffer_polygon cosd sqrtF coords 0).getD i (0, 0)).1 -
          (coords.getD i (0, 0)).1| ≤ 1/2000000 ∧
      |((SpatialAnalysis.buffer_polygon cosd sqrtF coords 0).getD i (0, 0)).2 -
          (coords.getD i (0, 0)).2| ≤ 1/2000000 := by
  have hnot : ¬ coords.length < 4 := not_lt.mpr h4
  have hbp := SpatialAnalysis.buffer_polygon_unfold cosd sqrtF coords 0 hnot
  refine ⟨?_, ?_, ?_⟩
  · rw [hbp, List.length_append]
    simp only [List.length_map, List.length_dropLast, List.length_singleton]
    omega
  · rw [hbp]
    have hBne : coords.dropLast.map (SpatialAnalysis.buffer_vertex cosd sqrtF
        (SpatialAnalysis.polygon_centroid coords).1
        (SpatialAnalysis.polygon_centroid coords).2 0) ≠ [] := by
      apply List.ne_nil_of_length_pos
      simp only [List.length_map, List.length_dropLast]
      omega
    obtain ⟨p, bs, hpbs⟩ : ∃ p bs, coords.dropLast.map (SpatialAnalysis.buffer_vertex cosd
        sqrtF (SpatialAnalysis.polygon_centroid coords).1
        (SpatialAnalysis.polygon_centroid coords).2 0) = p :: bs := by
      cases hx : coords.dropLast.map (SpatialAnalysis.buffer_vertex cosd sqrtF
          (SpatialAnalysis.polygon_centroid coords).1
          (SpatialAnalysis.polygon_centroid coords).2 0) with
      | nil => exact absurd hx hBne
      | cons p bs => exact ⟨p, bs, rfl⟩
    rw [hpbs, List.headD_cons, List.getLast?_concat, List.cons_append, List.head?_cons]
  · intro i hi
    rw [SpatialAnalysis.buffer_polygon_zero_getD cosd sqrtF coords h4 hclosed i hi]
    exact SpatialAnalysis.buffer_vertex_zero_close cosd sqrtF
      (SpatialAnalysis.polygon_centroid coords).1
      (SpatialAnalysis.polygon_centroid coords).2 (coords.getD i (0, 0))

/-- Witness for C9 at the concrete unit-square ring. -/
theorem buffer_zero_preserves_ring_witness :
    (SpatialAnalysis.buffer_polygon cosd0 sqrt0 ringSq 0).length = ringSq.length ∧
    |((SpatialAnalysis.buffer_polygon cosd0 sqrt0 ringSq 0).getD 1 (0, 0)).1 -
        (ringSq.getD 1 (0, 0)).1| ≤ 1/2000000 :=
  ⟨(buffer_zero_preserves_ring cosd0 sqrt0 ringSq (by norm_num [ringSq])
      (by norm_num [ringSq])).1,
   ((buffer_zero_preserves_ring cosd0 sqrt0 ringSq (by norm_num [ringSq])
      (by norm_num [ringSq])).2.2 1 (by norm_num [ringSq])).1⟩

/-- C10: `point_in_polygon` is total and never divides by zero — the
instrumented variant, which reports a would-be zero-denominator division as
`none`, always returns `some` of the plain function's boolean. -/
theorem point_in_polygon_total (lon lat : ℚ) (coords : List Point) :
    SpatialAnalysis.point_in_polygon_checked lon lat coords =
      some (SpatialAnalysis.point_in_polygon lon lat coords) := by
  simp only [SpatialAnalysis.point_in_polygon_checked, SpatialAnalysis.point_in_polygon]
  rw [SpatialAnalysis.foldl_pip_checked_step]
  rfl
